import Mathlib

/-!
Verification of the deterministic vehicle simulation core of the
formula-1-simulations repository, shallowly embedded in Lean.

Modelling conventions:
- C++ `float` arithmetic is modelled as exact arithmetic on `ℚ`; decimal
  literals from the source become the exact rationals they denote.
- `std::cos` and `std::sin` are external math-library functions; they are
  passed as an explicit parameter (`Trig`).  They feed only the `x_m` and
  `y_m` columns, which no other computation reads.
- `static_cast<float>(M_PI)` is the fixed rational `13176795 / 4194304`.
- Raw pointer + count pairs become `List`s; a nullable pointer becomes an
  `Option`.  Reading past the end of `std::array<float, 8> gear_ratios`
  (undefined behaviour in the source) is modelled as yielding `0`.
- The lap-rollover `while (s >= length)` loop is modelled by its closed
  form together with an explicit termination flag (`lapRolloverHaltsB`):
  the source loop terminates iff `s < length ∨ 0 < length`.
- `uint32_t` counters (`gear`, `lap`, counts) are modelled as `ℕ`; no
  computation here approaches `2^32`, so wrap-around is immaterial.
-/

attribute [local semireducible] Rat.mul Rat.add Rat.sub Rat.inv Rat.ofScientific

namespace F1Sim

/-- Air density constant `kAirDensity = 1.225f` from sim_core.cpp. -/
def kAirDensity : ℚ := 1.225

/-- Gravity constant `kGravity = 9.80665f` from sim_core.cpp. -/
def kGravity : ℚ := 9.80665

/-- Minimum engine rpm `kMinRpm = 4000.0f` from sim_core.cpp. -/
def kMinRpm : ℚ := 4000

/-- Maximum engine rpm `kMaxRpm = 13000.0f` from sim_core.cpp. -/
def kMaxRpm : ℚ := 13000

/-- The value of `static_cast<float>(M_PI)` used in the rpm formula. -/
def kPiF : ℚ := 13176795 / 4194304

/-- The helper `clampf(x, lo, hi) = std::max(lo, std::min(hi, x))`. -/
def clampf (x lo hi : ℚ) : ℚ := max lo (min hi x)

/-- Mirror of `f1::DriverInput`. -/
structure DriverInput where
  throttle : ℚ
  brake : ℚ
  steer : ℚ
deriving DecidableEq

/-- The zero input `DriverInput{0,0,0}` used to pad short input vectors. -/
def zeroInput : DriverInput := ⟨0, 0, 0⟩

/-- Clamping of a driver input to its declared ranges, as performed at the
top of the per-car loop in `SimulationCore::Step`. -/
def clampInput (i : DriverInput) : DriverInput :=
  ⟨clampf i.throttle 0 1, clampf i.brake 0 1, clampf i.steer (-1) 1⟩

/-- Mirror of `f1::TorquePoint`. -/
structure TorquePoint where
  rpm : ℚ
  torque_nm : ℚ
deriving DecidableEq

/-- Mirror of `f1::TrackNode`. -/
structure TrackNode where
  s : ℚ
  curvature : ℚ
  elevation : ℚ
deriving DecidableEq

/-- Mirror of `f1::TrackConfig`; the `nodes` pointer is nullable, and
`node_count` is the length of the list. -/
structure TrackConfig where
  nodes : Option (List TrackNode)
  length_m : ℚ
deriving DecidableEq

/-- Mirror of `f1::PowertrainConfig`; `gear_ratios` models the 8-entry
`std::array`, `torque_curve` the pointer + count pair (`[]` for null). -/
structure PowertrainConfig where
  gear_ratios : List ℚ
  gear_count : ℕ
  final_drive : ℚ
  driveline_efficiency : ℚ
  shift_rpm_up : ℚ
  shift_rpm_down : ℚ
  torque_curve : List TorquePoint
deriving DecidableEq

/-- Mirror of `f1::CarConfig`. -/
structure CarConfig where
  mass_kg : ℚ
  wheelbase_m : ℚ
  cg_to_front_m : ℚ
  cg_to_rear_m : ℚ
  tire_radius_m : ℚ
  mu_long : ℚ
  mu_lat : ℚ
  cdA : ℚ
  clA : ℚ
  rolling_resistance : ℚ
  brake_force_max_n : ℚ
  steer_gain : ℚ
  powertrain : PowertrainConfig
deriving DecidableEq

/-- Mirror of `f1::SimConfig`. -/
structure SimConfig where
  fixed_dt : ℚ
  max_cars : ℕ
  replay_capacity_steps : ℕ
deriving DecidableEq

/-- Mirror of `f1::TrackProfile`: the three parallel node columns and the
stored length. -/
structure TrackProfile where
  s_nodes : List ℚ
  curvature_vals : List ℚ
  elevation_vals : List ℚ
  length_m : ℚ
deriving DecidableEq

/-- The default-constructed `TrackProfile`: empty columns, `length_m_ = 0`. -/
def emptyProfile : TrackProfile := ⟨[], [], [], 0⟩

/-- Mirror of `TrackProfile::Load` (track.cpp): fails (returns `none`) on a
null node pointer, fewer than two nodes, or `length_m ≤ 1`; otherwise
copies the three node columns. -/
def loadTrack (cfg : TrackConfig) : Option TrackProfile :=
  match cfg.nodes with
  | none => none
  | some ns =>
    if ns.length < 2 ∨ cfg.length_m ≤ 1 then none
    else some ⟨ns.map (fun n => n.s), ns.map (fun n => n.curvature),
               ns.map (fun n => n.elevation), cfg.length_m⟩

/-- Mirror of `TrackProfile::wrap_s`: returns `0` when `length_m ≤ 0`;
otherwise the two while loops reduce `s` to its representative in
`[0, length)`, whose closed form is `s - ⌊s / length⌋ * length`. -/
def wrap_s (tp : TrackProfile) (s : ℚ) : ℚ :=
  if tp.length_m ≤ 0 then 0
  else s - (⌊s / tp.length_m⌋ : ℤ) * tp.length_m

/-- Index returned by `std::upper_bound` on the node column: the first
index whose value exceeds `s` (the list length when there is none). -/
def upperIdx (l : List ℚ) (s : ℚ) : ℕ := l.findIdx (fun x => decide (s < x))

/-- Mirror of `TrackProfile::sample`: wrap, binary-search the bracketing
nodes, and interpolate linearly (with the wrap span between the last node
and `length_m + s_nodes[0]`). -/
def sample (tp : TrackProfile) (values : List ℚ) (s_m : ℚ) : ℚ :=
  if tp.s_nodes.isEmpty then 0
  else
    let s := wrap_s tp s_m
    let i1 := upperIdx tp.s_nodes s
    if i1 = 0 then values.getD 0 0
    else
      let i0 := i1 - 1
      if tp.s_nodes.length ≤ i1 then
        let s0 := tp.s_nodes.getLastD 0
        let s1 := tp.length_m + tp.s_nodes.getD 0 0
        let t := (s - s0) / (s1 - s0)
        values.getLastD 0 + (values.getD 0 0 - values.getLastD 0) * t
      else
        let s0 := tp.s_nodes.getD i0 0
        let s1 := tp.s_nodes.getD i1 0
        if s1 ≤ s0 then values.getD i0 0
        else values.getD i0 0 + (values.getD i1 0 - values.getD i0 0) * ((s - s0) / (s1 - s0))

/-- Mirror of `TrackProfile::curvature`. -/
def TrackProfile.curvature (tp : TrackProfile) (s_m : ℚ) : ℚ :=
  sample tp tp.curvature_vals s_m

/-- Mirror of `TrackProfile::elevation`. -/
def TrackProfile.elevation (tp : TrackProfile) (s_m : ℚ) : ℚ :=
  sample tp tp.elevation_vals s_m

/-- The interpolation loop of `SimulationCore::engine_torque_nm`: scan for
the first point with `rpm ≤ c[i].rpm` and interpolate from its
predecessor; past the end return the last point's torque. -/
def torqueInterp (prev : TorquePoint) : List TorquePoint → ℚ → ℚ
  | [], _ => prev.torque_nm
  | p :: rest, rpm =>
    if rpm ≤ p.rpm then
      prev.torque_nm + (p.torque_nm - prev.torque_nm) * ((rpm - prev.rpm) / (p.rpm - prev.rpm))
    else torqueInterp p rest rpm

/-- Mirror of `SimulationCore::engine_torque_nm`: `0` for an empty curve,
endpoint clamping outside the rpm range, linear interpolation inside. -/
def engine_torque_nm (pt : PowertrainConfig) (rpm : ℚ) : ℚ :=
  match pt.torque_curve with
  | [] => 0
  | c0 :: rest =>
    let lastP := (c0 :: rest).getLastD c0
    if rpm ≤ c0.rpm then c0.torque_nm
    else if lastP.rpm ≤ rpm then lastP.torque_nm
    else torqueInterp c0 rest rpm

/-- Mirror of `SimulationCore::auto_shift`, acting on the stored gear with
the stored rpm: at most one up- or down-shift, only with `gear_count ≥ 2`. -/
def auto_shift (pt : PowertrainConfig) (rpm : ℚ) (g : ℕ) : ℕ :=
  if pt.gear_count < 2 then g
  else if pt.shift_rpm_up < rpm ∧ g < pt.gear_count then g + 1
  else if rpm < pt.shift_rpm_down ∧ 1 < g then g - 1
  else g

/-- Read of `gear_ratios[i]`; an index past the 8 stored entries is an
out-of-bounds read (undefined behaviour) in the source, modelled as `0`. -/
def gearRatioAt (pt : PowertrainConfig) (i : ℕ) : ℚ := pt.gear_ratios.getD i 0

/-- Closed form of the lap-rollover loop `while (s >= L) s -= L` together
with the number of iterations; meaningful whenever the loop terminates
(see `lapRolloverHaltsB`). -/
def lapRollover (L s : ℚ) : ℚ × ℕ :=
  if s < L then (s, 0)
  else if 0 < L then (s - (⌊s / L⌋ : ℤ) * L, (⌊s / L⌋).toNat)
  else (s, 0)

/-- Whether the lap-rollover loop terminates: it does iff the guard fails
at entry or the length is positive.  With `L ≤ 0` and `s ≥ L` the source
loop runs forever. -/
def lapRolloverHaltsB (L s : ℚ) : Bool := decide (s < L ∨ 0 < L)

/-- Mirror of one car's slice of `f1::CarStateSoA`. -/
structure CarState where
  s_m : ℚ
  x_m : ℚ
  y_m : ℚ
  yaw_rad : ℚ
  speed_mps : ℚ
  accel_long_mps2 : ℚ
  accel_lat_mps2 : ℚ
  engine_rpm : ℚ
  lap_time_s : ℚ
  last_lap_time_s : ℚ
  gear : ℕ
  lap : ℕ
deriving DecidableEq

/-- The per-car values written by `CarStateSoA::Resize`: zeros except
`engine_rpm = kMinRpm` and `gear = 1`. -/
def resetCar : CarState :=
  { s_m := 0, x_m := 0, y_m := 0, yaw_rad := 0, speed_mps := 0,
    accel_long_mps2 := 0, accel_lat_mps2 := 0, engine_rpm := kMinRpm,
    lap_time_s := 0, last_lap_time_s := 0, gear := 1, lap := 0 }

/-- The external math-library trigonometric functions used for the planar
pose update; they influence only the `x_m` and `y_m` columns. -/
structure Trig where
  cosf : ℚ → ℚ
  sinf : ℚ → ℚ

/-- A fixed concrete instantiation of `Trig` for closed statements; every
property stated in this file is independent of the instantiation. -/
def trig0 : Trig := ⟨fun _ => 1, fun _ => 0⟩

/-- The body of the per-car loop of `SimulationCore::Step` (sim_core.cpp),
returning the updated car together with the termination flag of the
lap-rollover loop. -/
def stepCarFull (tr : Trig) (cfg : CarConfig) (track : TrackProfile) (dt : ℚ)
    (input : DriverInput) (c : CarState) : CarState × Bool :=
  let throttle := clampf input.throttle 0 1
  let brake := clampf input.brake 0 1
  let steer := clampf input.steer (-1) 1
  let v := max 0 c.speed_mps
  let curv_track := track.curvature c.s_m
  let gear1 := auto_shift cfg.powertrain c.engine_rpm c.gear
  let gear_idx := max 1 (min gear1 cfg.powertrain.gear_count) - 1
  let ratioFD := gearRatioAt cfg.powertrain gear_idx * cfg.powertrain.final_drive
  let wheel_omega := v / max 0.05 cfg.tire_radius_m
  let engine_rpm := clampf (wheel_omega * ratioFD * 60 / (2 * kPiF)) kMinRpm kMaxRpm
  let engine_torque := engine_torque_nm cfg.powertrain engine_rpm * throttle
  let drive_torque := engine_torque * ratioFD * cfg.powertrain.driveline_efficiency
  let f_drive := drive_torque / max 0.05 cfg.tire_radius_m
  let downforce := 0.5 * kAirDensity * cfg.clA * v * v
  let normal := cfg.mass_kg * kGravity + downforce
  let f_long_max := cfg.mu_long * normal
  let f_drive_limited := min f_drive f_long_max
  let f_brake := brake * cfg.brake_force_max_n
  let f_drag := 0.5 * kAirDensity * cfg.cdA * v * v
  let f_net_long := f_drive_limited - f_brake - cfg.rolling_resistance - f_drag
  let a_long := f_net_long / cfg.mass_kg
  let curv_cmd := curv_track + steer * cfg.steer_gain / max 1 cfg.wheelbase_m
  let a_lat_unclamped := v * v * curv_cmd
  let a_lat_max := cfg.mu_lat * normal / cfg.mass_kg
  let a_lat := clampf a_lat_unclamped (-a_lat_max) a_lat_max
  let lat_saturation :=
    if 1 / 1000 < |a_lat_unclamped| then min 1 (|a_lat| / |a_lat_unclamped|) else 1
  let a_scrub := (1 - lat_saturation) * 4
  let v_next := max 0 (v + (a_long - a_scrub) * dt)
  let yaw_rate := if 1 / 10 < v_next then a_lat / v_next else 0
  let yaw2 := c.yaw_rad + yaw_rate * dt
  let x2 := c.x_m + tr.cosf yaw2 * v_next * dt
  let y2 := c.y_m + tr.sinf yaw2 * v_next * dt
  let s1 := c.s_m + v_next * dt
  let r := lapRollover track.length_m s1
  let last2 := if r.2 = 0 then c.last_lap_time_s else if r.2 = 1 then c.lap_time_s else 0
  let lapTime2 := (if r.2 = 0 then c.lap_time_s else 0) + dt
  ({ s_m := r.1, x_m := x2, y_m := y2, yaw_rad := yaw2, speed_mps := v_next,
     accel_long_mps2 := a_long, accel_lat_mps2 := a_lat, engine_rpm := engine_rpm,
     lap_time_s := lapTime2, last_lap_time_s := last2, gear := gear1,
     lap := c.lap + r.2 },
   lapRolloverHaltsB track.length_m s1)

/-- The updated car state of one iteration of the per-car loop. -/
def stepCar (tr : Trig) (cfg : CarConfig) (track : TrackProfile) (dt : ℚ)
    (input : DriverInput) (c : CarState) : CarState :=
  (stepCarFull tr cfg track dt input c).1

/-- Whether one iteration of the per-car loop terminates. -/
def stepCarHalts (tr : Trig) (cfg : CarConfig) (track : TrackProfile) (dt : ℚ)
    (input : DriverInput) (c : CarState) : Bool :=
  (stepCarFull tr cfg track dt input c).2

/-- The per-car input selection `(i < input_count) ? inputs[i] : zero`. -/
def getInput (inputs : List DriverInput) (i : ℕ) : DriverInput :=
  inputs.getD i zeroInput

/-- The captured replay frame: exactly `n` entries, the missing ones
filled with the zero input. -/
def padInputs (inputs : List DriverInput) (n : ℕ) : List DriverInput :=
  (List.range n).map (getInput inputs)

/-- Mirror of `f1::SimulationCore`; `cars` holds the SoA row-wise and its
length is `car_count_`. -/
structure SimulationCore where
  sim_cfg : SimConfig
  car_cfg : CarConfig
  track : TrackProfile
  cars : List CarState
  capture_replay : Bool
  replay_frames : List (List DriverInput)
deriving DecidableEq

/-- The indexed per-car loop of `SimulationCore::Step` over the whole car
list. -/
def carsStep (tr : Trig) (cfg : CarConfig) (track : TrackProfile) (dt : ℚ)
    (cars : List CarState) (inputs : List DriverInput) : List CarState :=
  (List.range cars.length).map
    (fun i => stepCar tr cfg track dt (getInput inputs i) (cars.getD i resetCar))

/-- Mirror of `SimulationCore::Step`: record a padded copy of the inputs
when capture is on and below capacity, then update every car. -/
def Step (tr : Trig) (core : SimulationCore) (inputs : List DriverInput) : SimulationCore :=
  let core1 :=
    if core.capture_replay ∧ core.replay_frames.length < core.sim_cfg.replay_capacity_steps
    then { core with replay_frames := core.replay_frames ++ [padInputs inputs core.cars.length] }
    else core
  { core1 with
    cars := carsStep tr core.car_cfg core.track core.sim_cfg.fixed_dt core1.cars inputs }

/-- Whether a whole `Step` call terminates: every car's lap-rollover loop
must. -/
def StepHalts (tr : Trig) (core : SimulationCore) (inputs : List DriverInput) : Bool :=
  (List.range core.cars.length).all
    (fun i => stepCarHalts tr core.car_cfg core.track core.sim_cfg.fixed_dt
      (getInput inputs i) (core.cars.getD i resetCar))

/-- Mirror of `SimulationCore::SetCarCount`: cap at `max_cars` and resize
to freshly reset cars. -/
def SetCarCount (core : SimulationCore) (count : ℕ) : SimulationCore :=
  { core with cars := List.replicate (min count core.sim_cfg.max_cars) resetCar }

/-- Mirror of `SimulationCore::Reset`: re-zero the SoA without resizing
and clear the replay buffer. -/
def Reset (core : SimulationCore) : SimulationCore :=
  { core with cars := List.replicate core.cars.length resetCar, replay_frames := [] }

/-- Mirror of `SimulationCore::StartReplayCapture`. -/
def StartReplayCapture (core : SimulationCore) : SimulationCore :=
  { core with capture_replay := true, replay_frames := [] }

/-- Mirror of `SimulationCore::StopReplayCapture`. -/
def StopReplayCapture (core : SimulationCore) : SimulationCore :=
  { core with capture_replay := false }

/-- The comparison applied per car by the determinism check. -/
def replayCarMatches (a b : CarState) : Bool :=
  decide (|a.speed_mps - b.speed_mps| < 1 / 100000) &&
  decide (|a.s_m - b.s_m| < 1 / 10000) && decide (a.lap = b.lap)

/-- Mirror of `SimulationCore::ReplayCapturedDeterministic`: `false` on an
empty buffer; otherwise snapshot frames and state, `Reset`, re-issue every
recorded frame through `Step`, and compare speed, arc-length and lap per
car against the baseline.  Returns the verdict together with the mutated
core. -/
def ReplayCapturedDeterministic (tr : Trig) (core : SimulationCore) :
    Bool × SimulationCore :=
  if core.replay_frames.isEmpty then (false, core)
  else
    let recorded := core.replay_frames
    let baseline := core.cars
    let c2 := recorded.foldl (Step tr) (Reset core)
    let ok := (List.range c2.cars.length).all
      (fun i => replayCarMatches (c2.cars.getD i resetCar) (baseline.getD i resetCar))
    (ok, c2)

/-- Mirror of the `SimulationCore` constructor: load the track ignoring
failure (the default-constructed profile with `length_m_ = 0` then
remains), then `SetCarCount(min(max_cars, 1))`. -/
def mkSimulationCore (sim_cfg : SimConfig) (car_cfg : CarConfig)
    (track_cfg : TrackConfig) : SimulationCore :=
  SetCarCount
    { sim_cfg := sim_cfg, car_cfg := car_cfg,
      track := (loadTrack track_cfg).getD emptyProfile,
      cars := [], capture_replay := false, replay_frames := [] }
    (min sim_cfg.max_cars 1)

/-- Mirror of `f1sim_create` (c_api.cpp): null handle exactly when one of
the three config pointers is null; the track-validity result of `Load` is
never consulted. -/
def f1sim_create (sim_cfg : Option SimConfig) (car_cfg : Option CarConfig)
    (track_cfg : Option TrackConfig) : Option SimulationCore :=
  match sim_cfg, car_cfg, track_cfg with
  | some s, some c, some t =>
    some (SetCarCount (mkSimulationCore s c t) (min s.max_cars 1))
  | _, _, _ => none

/-- The `kDefaultTrackNodes` table of c_api.cpp. -/
def kDefaultTrackNodes : List TrackNode :=
  [⟨0, 0, 0⟩, ⟨350, 0, 0⟩, ⟨620, 0.018, 0.5⟩, ⟨810, 0.040, 1.0⟩,
   ⟨980, 0.008, 1.5⟩, ⟨1220, -0.010, 1.2⟩, ⟨1600, -0.024, 0.8⟩,
   ⟨1880, -0.006, 0.3⟩, ⟨2250, 0, -0.2⟩, ⟨2600, 0.022, -0.5⟩,
   ⟨2820, 0.048, -0.8⟩, ⟨3000, 0.005, -1.0⟩, ⟨3400, -0.010, -0.6⟩,
   ⟨3800, -0.030, -0.1⟩, ⟨4150, -0.004, 0.2⟩, ⟨4500, 0, 0⟩]

/-- The `kDefaultTorqueCurve` table of c_api.cpp. -/
def kDefaultTorqueCurve : List TorquePoint :=
  [⟨4000, 510⟩, ⟨6000, 640⟩, ⟨8000, 760⟩, ⟨9500, 810⟩, ⟨11000, 780⟩,
   ⟨12000, 730⟩, ⟨13000, 640⟩]

/-- Mirror of `f1sim_default_track_config`. -/
def f1sim_default_track_config : TrackConfig :=
  ⟨some kDefaultTrackNodes, 4600⟩

/-- Mirror of `f1sim_default_car_config`. -/
def f1sim_default_car_config : CarConfig :=
  { mass_kg := 798, wheelbase_m := 3.6, cg_to_front_m := 1.6,
    cg_to_rear_m := 2.0, tire_radius_m := 0.34, mu_long := 1.85,
    mu_lat := 2.1, cdA := 1.12, clA := 3.2, rolling_resistance := 180,
    brake_force_max_n := 18500, steer_gain := 0.22,
    powertrain :=
      { gear_ratios := [3.18, 2.31, 1.79, 1.45, 1.22, 1.05, 0.92, 0.82],
        gear_count := 8, final_drive := 3.05, driveline_efficiency := 0.92,
        shift_rpm_up := 11800, shift_rpm_down := 6200,
        torque_curve := kDefaultTorqueCurve } }

/-- Mirror of `f1sim_default_sim_config`. -/
def f1sim_default_sim_config : SimConfig :=
  { fixed_dt := 1 / 240, max_cars := 20, replay_capacity_steps := 120000 }

/-- The core produced by `f1sim_create` on the three default configs. -/
def defaultCore : SimulationCore :=
  SetCarCount
    (mkSimulationCore f1sim_default_sim_config f1sim_default_car_config
      f1sim_default_track_config)
    (min f1sim_default_sim_config.max_cars 1)

/-- One `Step` with the single zero-input vector. -/
def stepZero (tr : Trig) (core : SimulationCore) : SimulationCore :=
  Step tr core [zeroInput]

/-- The bounded fixed-dt drain loop of `step_sim` (wasm_api.cpp): while the
remainder covers one fixed step and fuel remains, subtract `fixed_dt` and
run one step; returns the step count and the final remainder. -/
def accLoop (fixed_dt : ℚ) : ℕ → ℚ → ℕ × ℚ
  | 0, r => (0, r)
  | fuel + 1, r =>
    if fixed_dt ≤ r then
      let res := accLoop fixed_dt fuel (r - fixed_dt)
      (res.1 + 1, res.2)
    else (0, r)

/-- The accumulator behaviour of one `step_sim(dt)` call: add
`max(0, dt)` to the remainder, then drain with at most `8192` iterations;
returns the number of fixed steps executed and the new remainder. -/
def step_sim_acc (fixed_dt r dt : ℚ) : ℕ × ℚ :=
  accLoop fixed_dt 8192 (r + max 0 dt)

/-- A track config with a single node: `TrackProfile::Load` rejects it
(`node_count < 2`), yet `f1sim_create` never consults that verdict. -/
def badTrackCfg : TrackConfig := ⟨some [⟨0, 0, 0⟩], 100⟩

/-- The non-null handle `f1sim_create` yields on the invalid track: its
profile stayed default-constructed, so its length is `0`. -/
def badCore : SimulationCore :=
  SetCarCount
    (mkSimulationCore f1sim_default_sim_config f1sim_default_car_config badTrackCfg)
    (min f1sim_default_sim_config.max_cars 1)

/-- A simple flat powertrain used by concrete runs: one gear, unit ratios,
constant 100 Nm torque. -/
def cexPowertrain : PowertrainConfig :=
  { gear_ratios := [1, 0, 0, 0, 0, 0, 0, 0], gear_count := 1,
    final_drive := 1, driveline_efficiency := 1, shift_rpm_up := 20000,
    shift_rpm_down := 0, torque_curve := [⟨0, 100⟩, ⟨20000, 100⟩] }

/-- A unit-mass car with no drag, downforce, rolling resistance or brake,
so one full-throttle step at `dt = 1` raises the speed to exactly 100. -/
def cexCarCfg : CarConfig :=
  { mass_kg := 1, wheelbase_m := 1, cg_to_front_m := 1, cg_to_rear_m := 1,
    tire_radius_m := 1, mu_long := 100, mu_lat := 1, cdA := 0, clA := 0,
    rolling_resistance := 0, brake_force_max_n := 0, steer_gain := 0,
    powertrain := cexPowertrain }

/-- A valid straight two-node track of length 1000. -/
def cexTrackCfg : TrackConfig := ⟨some [⟨0, 0, 0⟩, ⟨500, 0, 0⟩], 1000⟩

/-- One-car sim config with `fixed_dt = 1` and replay capacity 100. -/
def cexSimCfg : SimConfig := ⟨1, 1, 100⟩

/-- The handle `f1sim_create` yields on the three configs above. -/
def cexCore : SimulationCore :=
  SetCarCount (mkSimulationCore cexSimCfg cexCarCfg cexTrackCfg)
    (min cexSimCfg.max_cars 1)

/-- A powertrain claiming 9 gears, as accepted unchanged by the c_api
conversion `to_cpp` (only the embedded `init_sim` caps at 8); the low
`shift_rpm_up = 3000 < kMinRpm` forces an upshift on every step. -/
def ninePowertrain : PowertrainConfig :=
  { gear_ratios := [1, 1, 1, 1, 1, 1, 1, 1], gear_count := 9,
    final_drive := 1, driveline_efficiency := 1, shift_rpm_up := 3000,
    shift_rpm_down := 0, torque_curve := [⟨0, 100⟩, ⟨20000, 100⟩] }

/-- A car config embedding `ninePowertrain` that stays at rest on zero
input. -/
def nineCarCfg : CarConfig :=
  { mass_kg := 1, wheelbase_m := 1, cg_to_front_m := 1, cg_to_rear_m := 1,
    tire_radius_m := 1, mu_long := 100, mu_lat := 1, cdA := 0, clA := 0,
    rolling_resistance := 0, brake_force_max_n := 0, steer_gain := 0,
    powertrain := ninePowertrain }

/-- The handle `f1sim_create` yields on `nineCarCfg` and a valid track. -/
def nineCore : SimulationCore :=
  SetCarCount (mkSimulationCore ⟨1, 1, 100⟩ nineCarCfg cexTrackCfg) (min 1 1)

/-- A one-car core holding a single recorded one-entry frame with capture
switched off, as left by `stop_replay_capture()` after one captured step. -/
def c10Core : SimulationCore :=
  { sim_cfg := ⟨1, 1, 100⟩, car_cfg := cexCarCfg,
    track := (loadTrack cexTrackCfg).getD emptyProfile,
    cars := [resetCar], capture_replay := false,
    replay_frames := [[zeroInput]] }

/-- States reachable through the public interface of a `SimulationCore`:
construction followed by any sequence of `SetCarCount`, `Reset`, `Step`,
capture toggles and destructive determinism checks. -/
inductive Reach (tr : Trig) : SimulationCore → Prop
  | create (s : SimConfig) (c : CarConfig) (t : TrackConfig) :
      Reach tr (mkSimulationCore s c t)
  | set_count (core : SimulationCore) (n : ℕ) :
      Reach tr core → Reach tr (SetCarCount core n)
  | reset (core : SimulationCore) : Reach tr core → Reach tr (Reset core)
  | step (core : SimulationCore) (inputs : List DriverInput) :
      Reach tr core → Reach tr (Step tr core inputs)
  | start_capture (core : SimulationCore) :
      Reach tr core → Reach tr (StartReplayCapture core)
  | stop_capture (core : SimulationCore) :
      Reach tr core → Reach tr (StopReplayCapture core)
  | replay_check (core : SimulationCore) :
      Reach tr core → Reach tr (ReplayCapturedDeterministic tr core).2

section Lemmas

lemma clampf_idem (x lo hi : ℚ) (h : lo ≤ hi) :
    clampf (clampf x lo hi) lo hi = clampf x lo hi := by
  have h2 : max lo (min hi x) ≤ hi := max_le h (min_le_left _ _)
  rw [clampf, clampf, min_eq_right h2, ← max_assoc, max_self]

lemma clampInput_zero : clampInput zeroInput = zeroInput := by
  simp [clampInput, zeroInput, clampf]

lemma stepCar_clamped (tr : Trig) (cfg : CarConfig) (track : TrackProfile)
    (dt : ℚ) (input : DriverInput) (c : CarState) :
    stepCar tr cfg track dt (clampInput input) c = stepCar tr cfg track dt input c := by
  simp only [stepCar, stepCarFull, clampInput]
  rw [clampf_idem _ _ _ (by norm_num), clampf_idem _ _ _ (by norm_num),
    clampf_idem _ _ _ (by norm_num)]

lemma getInput_map_clamp (inputs : List DriverInput) (i : ℕ) :
    getInput (inputs.map clampInput) i = clampInput (getInput inputs i) := by
  unfold getInput
  by_cases hi : i < inputs.length
  · rw [List.getD_eq_getElem _ _ (by simpa using hi), List.getD_eq_getElem _ _ hi]
    simp
  · rw [List.getD_eq_default _ _ (by simpa using le_of_not_lt hi),
      List.getD_eq_default _ _ (le_of_not_lt hi), clampInput_zero]

lemma Step_cars (tr : Trig) (core : SimulationCore) (inputs : List DriverInput) :
    (Step tr core inputs).cars
      = carsStep tr core.car_cfg core.track core.sim_cfg.fixed_dt core.cars inputs := by
  unfold Step
  split <;> rfl

lemma Step_car_cfg (tr : Trig) (core : SimulationCore) (inputs : List DriverInput) :
    (Step tr core inputs).car_cfg = core.car_cfg := by
  unfold Step
  split <;> rfl

lemma Step_track (tr : Trig) (core : SimulationCore) (inputs : List DriverInput) :
    (Step tr core inputs).track = core.track := by
  unfold Step
  split <;> rfl

lemma Step_sim_cfg (tr : Trig) (core : SimulationCore) (inputs : List DriverInput) :
    (Step tr core inputs).sim_cfg = core.sim_cfg := by
  unfold Step
  split <;> rfl

lemma Step_capture (tr : Trig) (core : SimulationCore) (inputs : List DriverInput) :
    (Step tr core inputs).capture_replay = core.capture_replay := by
  unfold Step
  split <;> rfl

lemma carsStep_length (tr : Trig) (cfg : CarConfig) (track : TrackProfile) (dt : ℚ)
    (cars : List CarState) (inputs : List DriverInput) :
    (carsStep tr cfg track dt cars inputs).length = cars.length := by
  simp [carsStep]

lemma Step_cars_length (tr : Trig) (core : SimulationCore) (inputs : List DriverInput) :
    (Step tr core inputs).cars.length = core.cars.length := by
  rw [Step_cars, carsStep_length]

lemma wrap_s_add_int_mul (tp : TrackProfile) (s : ℚ) (k : ℤ) :
    wrap_s tp (s + k * tp.length_m) = wrap_s tp s := by
  unfold wrap_s
  by_cases h : tp.length_m ≤ 0
  · simp [h]
  · have hL : tp.length_m ≠ 0 := fun hh => h (le_of_eq hh)
    have hdiv : (s + (k : ℚ) * tp.length_m) / tp.length_m = s / tp.length_m + (k : ℚ) := by
      field_simp
    rw [if_neg h, if_neg h, hdiv, Int.floor_add_int]
    push_cast
    ring

end Lemmas

/-- C8.  Track sampling is periodic in the track length: for every rational
arc-length `s` and every integer `k`, `curvature(s + k · length)` equals
`curvature(s)` exactly, because `sample` first wraps its argument into
`[0, length)` (both are total functions of `s`). -/
theorem curvature_periodic_in_track_length (tp : TrackProfile) (s : ℚ) (k : ℤ) :
    tp.curvature (s + k * tp.length_m) = tp.curvature s := by
  unfold TrackProfile.curvature sample
  rw [wrap_s_add_int_mul]

/-- C6.  Silent input clamping: for every core state and every list of
driver inputs (arbitrary rationals), the post-step car state produced by
`Step` equals the one produced by first clamping throttle to `[0,1]`,
brake to `[0,1]` and steer to `[-1,1]`; unclamped inputs are never
rejected (`Step` is total). -/
theorem step_equals_step_of_clamped_inputs (tr : Trig) (core : SimulationCore)
    (inputs : List DriverInput) :
    (Step tr core (inputs.map clampInput)).cars = (Step tr core inputs).cars := by
  rw [Step_cars, Step_cars]
  unfold carsStep
  refine List.map_congr_left ?_
  intro i _
  rw [getInput_map_clamp, stepCar_clamped]

section Accumulator

lemma accLoop_spec (d : ℚ) (hd : 0 < d) :
    ∀ (fuel : ℕ) (r : ℚ), 0 ≤ r →
      accLoop d fuel r
        = (min (⌊r / d⌋).toNat fuel, r - (min (⌊r / d⌋).toNat fuel : ℕ) * d) := by
  intro fuel
  induction fuel with
  | zero =>
    intro r _
    simp [accLoop]
  | succ fuel ih =>
    intro r hr
    by_cases hle : d ≤ r
    · have hr' : 0 ≤ r - d := sub_nonneg.2 hle
      have hdiv : (r - d) / d = r / d - (1 : ℤ) := by
        push_cast
        field_simp
      have hfl : 1 ≤ ⌊r / d⌋ := by
        rw [Int.le_floor]
        push_cast
        rw [le_div_iff₀ hd]
        linarith
      have htn : (⌊r / d⌋ - 1).toNat = ⌊r / d⌋.toNat - 1 := by
        omega
      have htn1 : 1 ≤ ⌊r / d⌋.toNat := by
        omega
      rw [accLoop, if_pos hle, ih (r - d) hr', hdiv, Int.floor_sub_int, htn]
      have hmin : min (⌊r / d⌋.toNat - 1) fuel + 1 = min ⌊r / d⌋.toNat (fuel + 1) := by
        omega
      refine Prod.ext ?_ ?_
      · simpa using hmin
      · show (r - d) - (min (⌊r / d⌋.toNat - 1) fuel : ℕ) * d
            = r - (min ⌊r / d⌋.toNat (fuel + 1) : ℕ) * d
        rw [← hmin]
        push_cast
        ring
    · have hlt : r < d := lt_of_not_le hle
      have hfl : ⌊r / d⌋ = 0 := by
        rw [Int.floor_eq_zero_iff]
        constructor
        · exact div_nonneg hr hd.le
        · rwa [div_lt_one hd]
      rw [accLoop, if_neg hle, hfl]
      simp

end Accumulator

/-- C7 (corrected).  The fixed-dt accumulator of `step_sim`: the remainder
grows by `max(0, dt)`, exactly `min(⌊r / fixed_dt⌋, 8192)` fixed steps are
executed, each subtracting `fixed_dt`, and whatever remains — including
time beyond the 8192-step ceiling — stays in the remainder (nothing is
discarded). -/
theorem step_sim_accumulator_spec (d r dt : ℚ) (hd : 0 < d) (hr : 0 ≤ r) :
    step_sim_acc d r dt
      = (min (⌊(r + max 0 dt) / d⌋).toNat 8192,
         (r + max 0 dt) - (min (⌊(r + max 0 dt) / d⌋).toNat 8192 : ℕ) * d) := by
  unfold step_sim_acc
  exact accLoop_spec d hd 8192 (r + max 0 dt) (by positivity)

/-- C7 witness: with `fixed_dt = 1`, remainder `0` and `dt = 5/2`, the
call runs two fixed steps and leaves remainder `1/2`. -/
theorem step_sim_accumulator_spec_witness :
    (0 : ℚ) < 1 ∧ (0 : ℚ) ≤ 0 ∧ step_sim_acc 1 0 (5 / 2) = (2, 1 / 2) := by
  refine ⟨one_pos, le_refl 0, ?_⟩
  rw [step_sim_accumulator_spec 1 0 (5 / 2) one_pos (le_refl 0)]
  norm_num
  rw [show Int.toNat 2 = 2 from rfl]
  norm_num

/-- C7 counterexample to the claim as stated: a call with `fixed_dt = 1`,
remainder `0` and `dt = 8193` hits the 8192-step ceiling but leaves the
excess second in the remainder instead of discarding it — an immediately
following call with `dt = 0` still executes one more fixed step. -/
theorem step_sim_keeps_excess_remainder :
    step_sim_acc 1 0 8193 = (8192, 1) ∧ (step_sim_acc 1 1 0).1 = 1 := by
  constructor
  · have h := accLoop_spec 1 one_pos 8192 (0 + max 0 8193) (by norm_num)
    rw [step_sim_acc, h]
    norm_num
  · have h := accLoop_spec 1 one_pos 8192 (1 + max 0 0) (by norm_num)
    rw [step_sim_acc, h]
    norm_num

set_option maxRecDepth 100000 in
/-- C3 (code bug).  `f1sim_create` returns a non-null handle even when the
track config is invalid (here a single node, which `TrackProfile::Load`
rejects): the create path only null-checks the three config pointers and
ignores `Load`'s verdict, contradicting the claimed null-handle contract. -/
theorem create_accepts_invalid_track :
    loadTrack badTrackCfg = none ∧
      (f1sim_create (some f1sim_default_sim_config) (some f1sim_default_car_config)
        (some badTrackCfg)).isSome = true := by
  constructor
  · decide
  · decide

set_option maxRecDepth 100000 in
/-- C2 (code bug).  On the handle obtained from an invalid track config
the default profile (length `0`) survives, and the very first `Step` with
zero input fails to terminate: the lap-rollover loop `while (s >= length)`
spins forever at `s = 0`, `length = 0`. -/
theorem step_nonterminating_on_invalid_track_handle :
    badCore.track.length_m = 0 ∧ StepHalts trig0 badCore [zeroInput] = false := by
  constructor
  · decide
  · decide

set_option maxRecDepth 400000 in
/-- C5 (code bug).  A powertrain with `gear_count = 9` passes through the
c_api conversion uncapped, and after eight steps the auto-shifter has
raised the gear to 9 — beyond the 8-entry ratio array — contradicting the
claimed silent cap at 8 (only the embedded `init_sim` path caps). -/
theorem gear_exceeds_eight_via_c_api :
    nineCore.car_cfg.powertrain.gear_count = 9 ∧
      (((stepZero trig0)^[8] nineCore).cars.getD 0 resetCar).gear = 9 := by
  constructor
  · decide
  · decide

set_option maxRecDepth 400000 in
/-- C1 counterexample.  The determinism law fails on a `SimulationCore`
that was stepped before capture started: one full-throttle step brings the
speed to 100, then capture starts and one zero-input frame is recorded —
but the replay re-runs that single frame from a `reset()` state, ending at
speed 0 against a baseline of 100, so the check returns false even though
a frame was captured. -/
theorem replay_check_false_after_unreset_capture :
    (ReplayCapturedDeterministic trig0
      (Step trig0 (StartReplayCapture (Step trig0 cexCore [⟨1, 0, 0⟩])) [zeroInput])).1
      = false := by
  decide

section ArcLengthInvariant

lemma lapRollover_bounds (L s : ℚ) (hL : 0 < L) (hs : 0 ≤ s) :
    0 ≤ (lapRollover L s).1 ∧ (lapRollover L s).1 < L := by
  unfold lapRollover
  by_cases h : s < L
  · rw [if_pos h]
    exact ⟨hs, h⟩
  · rw [if_neg h, if_pos hL]
    have hL0 : L ≠ 0 := ne_of_gt hL
    have key : s - (⌊s / L⌋ : ℤ) * L = L * Int.fract (s / L) := by
      rw [Int.fract, mul_sub, mul_div_cancel₀ _ hL0]
      ring
    dsimp only
    rw [key]
    constructor
    · exact mul_nonneg hL.le (Int.fract_nonneg _)
    · calc L * Int.fract (s / L) < L * 1 :=
          mul_lt_mul_of_pos_left (Int.fract_lt_one _) hL
        _ = L := mul_one L

lemma stepCar_s_bounds (tr : Trig) (cfg : CarConfig) (track : TrackProfile)
    (dt : ℚ) (input : DriverInput) (c : CarState)
    (hL : 0 < track.length_m) (hdt : 0 ≤ dt) (hs : 0 ≤ c.s_m) :
    0 ≤ (stepCar tr cfg track dt input c).s_m ∧
      (stepCar tr cfg track dt input c).s_m < track.length_m := by
  unfold stepCar stepCarFull
  exact lapRollover_bounds _ _ hL
    (add_nonneg hs (mul_nonneg (le_max_left _ _) hdt))

lemma Step_preserves_s_bounds (tr : Trig) (core : SimulationCore)
    (inputs : List DriverInput)
    (hL : 0 < core.track.length_m) (hdt : 0 ≤ core.sim_cfg.fixed_dt)
    (hinv : ∀ c ∈ core.cars, 0 ≤ c.s_m ∧ c.s_m < core.track.length_m) :
    ∀ c ∈ (Step tr core inputs).cars,
      0 ≤ c.s_m ∧ c.s_m < core.track.length_m := by
  intro c hc
  rw [Step_cars] at hc
  unfold carsStep at hc
  rcases List.mem_map.1 hc with ⟨i, hi, rfl⟩
  have hi' : i < core.cars.length := List.mem_range.1 hi
  have hmem : core.cars.getD i resetCar ∈ core.cars := by
    rw [List.getD_eq_getElem _ _ hi']
    exact List.getElem_mem hi'
  exact stepCar_s_bounds tr _ _ _ _ _ hL hdt (hinv _ hmem).1

lemma foldl_Step_track (tr : Trig) (Fs : List (List DriverInput)) :
    ∀ core : SimulationCore, (Fs.foldl (Step tr) core).track = core.track := by
  induction Fs with
  | nil => intro core; rfl
  | cons f fs ih =>
    intro core
    rw [List.foldl_cons, ih, Step_track]

lemma foldl_Step_sim_cfg (tr : Trig) (Fs : List (List DriverInput)) :
    ∀ core : SimulationCore, (Fs.foldl (Step tr) core).sim_cfg = core.sim_cfg := by
  induction Fs with
  | nil => intro core; rfl
  | cons f fs ih =>
    intro core
    rw [List.foldl_cons, ih, Step_sim_cfg]

lemma foldl_Step_car_cfg (tr : Trig) (Fs : List (List DriverInput)) :
    ∀ core : SimulationCore, (Fs.foldl (Step tr) core).car_cfg = core.car_cfg := by
  induction Fs with
  | nil => intro core; rfl
  | cons f fs ih =>
    intro core
    rw [List.foldl_cons, ih, Step_car_cfg]

lemma foldl_Step_cars_length (tr : Trig) (Fs : List (List DriverInput)) :
    ∀ core : SimulationCore,
      (Fs.foldl (Step tr) core).cars.length = core.cars.length := by
  induction Fs with
  | nil => intro core; rfl
  | cons f fs ih =>
    intro core
    rw [List.foldl_cons, ih, Step_cars_length]

lemma foldl_Step_s_bounds (tr : Trig) (Fs : List (List DriverInput)) :
    ∀ core : SimulationCore, 0 < core.track.length_m →
      0 ≤ core.sim_cfg.fixed_dt →
      (∀ c ∈ core.cars, 0 ≤ c.s_m ∧ c.s_m < core.track.length_m) →
      ∀ c ∈ (Fs.foldl (Step tr) core).cars,
        0 ≤ c.s_m ∧ c.s_m < core.track.length_m := by
  induction Fs with
  | nil =>
    intro core _ _ hinv
    simpa using hinv
  | cons f fs ih =>
    intro core hL hdt hinv
    rw [List.foldl_cons]
    intro c hc
    have hstep := Step_preserves_s_bounds tr core f hL hdt hinv
    have hres := ih (Step tr core f) (by rwa [Step_track]) (by rwa [Step_sim_cfg])
      (by rwa [Step_track]) c hc
    rwa [Step_track] at hres

lemma replay_check_track (tr : Trig) (core : SimulationCore) :
    (ReplayCapturedDeterministic tr core).2.track = core.track := by
  unfold ReplayCapturedDeterministic
  by_cases h : core.replay_frames.isEmpty
  · rw [if_pos h]
  · rw [if_neg h]
    exact foldl_Step_track tr _ _

lemma replay_check_sim_cfg (tr : Trig) (core : SimulationCore) :
    (ReplayCapturedDeterministic tr core).2.sim_cfg = core.sim_cfg := by
  unfold ReplayCapturedDeterministic
  by_cases h : core.replay_frames.isEmpty
  · rw [if_pos h]
  · rw [if_neg h]
    exact foldl_Step_sim_cfg tr _ _

lemma replicate_resetCar_bounds (L : ℚ) (hL : 0 < L) (n : ℕ) :
    ∀ c ∈ List.replicate n resetCar, 0 ≤ c.s_m ∧ c.s_m < L := by
  intro c hc
  rw [List.eq_of_mem_replicate hc]
  exact ⟨le_refl 0, hL⟩

lemma replay_check_s_bounds (tr : Trig) (core : SimulationCore)
    (hL : 0 < core.track.length_m) (hdt : 0 ≤ core.sim_cfg.fixed_dt)
    (hinv : ∀ c ∈ core.cars, 0 ≤ c.s_m ∧ c.s_m < core.track.length_m) :
    ∀ c ∈ (ReplayCapturedDeterministic tr core).2.cars,
      0 ≤ c.s_m ∧ c.s_m < core.track.length_m := by
  unfold ReplayCapturedDeterministic
  by_cases h : core.replay_frames.isEmpty
  · rw [if_pos h]
    exact hinv
  · rw [if_neg h]
    intro c hc
    have hres := foldl_Step_s_bounds tr core.replay_frames (Reset core) hL hdt
      (replicate_resetCar_bounds _ hL _) c hc
    exact hres

end ArcLengthInvariant

/-- C4.  Arc-length invariant: in every state reachable through the public
interface of a core whose track length is positive and whose fixed dt is
non-negative, every car satisfies `0 ≤ s_m < track.length` — `Step`
re-establishes it and `set_car_count` / `reset` re-zero `s_m`. -/
theorem reachable_arc_length_bounds (tr : Trig) (core : SimulationCore)
    (h : Reach tr core) :
    0 < core.track.length_m → 0 ≤ core.sim_cfg.fixed_dt →
    ∀ c ∈ core.cars, 0 ≤ c.s_m ∧ c.s_m < core.track.length_m := by
  induction h with
  | create s c t =>
    intro hL _ x hx
    have hx' : x = resetCar := by
      simp only [mkSimulationCore, SetCarCount] at hx
      exact List.eq_of_mem_replicate hx
    rw [hx']
    exact ⟨le_refl 0, hL⟩
  | set_count core n hr ih =>
    intro hL _ x hx
    have hx' : x = resetCar := by
      simp only [SetCarCount] at hx
      exact List.eq_of_mem_replicate hx
    rw [hx']
    exact ⟨le_refl 0, hL⟩
  | reset core hr ih =>
    intro hL _ x hx
    have hx' : x = resetCar := by
      simp only [Reset] at hx
      exact List.eq_of_mem_replicate hx
    rw [hx']
    exact ⟨le_refl 0, hL⟩
  | step core inputs hr ih =>
    intro hL hdt
    have hL' : 0 < core.track.length_m := by rwa [Step_track] at hL
    have hdt' : 0 ≤ core.sim_cfg.fixed_dt := by rwa [Step_sim_cfg] at hdt
    intro c hc
    have := Step_preserves_s_bounds tr core inputs hL' hdt' (ih hL' hdt') c hc
    rwa [Step_track]
  | start_capture core hr ih =>
    intro hL hdt
    exact ih hL hdt
  | stop_capture core hr ih =>
    intro hL hdt
    exact ih hL hdt
  | replay_check core hr ih =>
    intro hL hdt
    have hL' : 0 < core.track.length_m := by rwa [replay_check_track] at hL
    have hdt' : 0 ≤ core.sim_cfg.fixed_dt := by rwa [replay_check_sim_cfg] at hdt
    intro c hc
    have := replay_check_s_bounds tr core hL' hdt' (ih hL' hdt') c hc
    rwa [replay_check_track]

set_option maxRecDepth 100000 in
/-- C4 witness: the default core (a reachable state: created, then car
count set) has positive track length, non-negative dt, and its one car
satisfies `0 ≤ s_m < 4600`. -/
theorem reachable_arc_length_bounds_witness :
    0 < defaultCore.track.length_m ∧ 0 ≤ defaultCore.sim_cfg.fixed_dt ∧
      ∀ c ∈ defaultCore.cars, 0 ≤ c.s_m ∧ c.s_m < defaultCore.track.length_m := by
  refine ⟨by decide, by decide, ?_⟩
  exact reachable_arc_length_bounds trig0 defaultCore
    (Reach.set_count _ _ (Reach.create f1sim_default_sim_config
      f1sim_default_car_config f1sim_default_track_config))
    (by decide) (by decide)

section RestStability

lemma getInput_single_zero (i : ℕ) : getInput [zeroInput] i = zeroInput := by
  match i with
  | 0 => rfl
  | Nat.succ j => rfl

lemma iterate_stepZero_car_cfg (tr : Trig) (n : ℕ) :
    ((stepZero tr)^[n] defaultCore).car_cfg = f1sim_default_car_config := by
  induction n with
  | zero => rfl
  | succ n ih => rw [Function.iterate_succ_apply', stepZero, Step_car_cfg, ih]

lemma iterate_stepZero_track (tr : Trig) (n : ℕ) :
    ((stepZero tr)^[n] defaultCore).track = defaultCore.track := by
  induction n with
  | zero => rfl
  | succ n ih => rw [Function.iterate_succ_apply', stepZero, Step_track, ih]

lemma iterate_stepZero_dt (tr : Trig) (n : ℕ) :
    ((stepZero tr)^[n] defaultCore).sim_cfg.fixed_dt = 1 / 240 := by
  induction n with
  | zero => rfl
  | succ n ih => rw [Function.iterate_succ_apply', stepZero, Step_sim_cfg, ih]

set_option maxRecDepth 100000 in
lemma defaultCore_track_pos : 0 < defaultCore.track.length_m := by decide

lemma stepCar_rest (tr : Trig) (track : TrackProfile) (hL : 0 < track.length_m)
    (c : CarState) (h1 : c.speed_mps = 0) (h2 : c.s_m = 0) (h3 : c.x_m = 0)
    (h4 : c.y_m = 0) (h5 : c.yaw_rad = 0) :
    (stepCar tr f1sim_default_car_config track (1 / 240) zeroInput c).x_m = 0 ∧
    (stepCar tr f1sim_default_car_config track (1 / 240) zeroInput c).y_m = 0 ∧
    (stepCar tr f1sim_default_car_config track (1 / 240) zeroInput c).yaw_rad = 0 ∧
    (stepCar tr f1sim_default_car_config track (1 / 240) zeroInput c).s_m = 0 ∧
    (stepCar tr f1sim_default_car_config track (1 / 240) zeroInput c).speed_mps = 0 ∧
    (stepCar tr f1sim_default_car_config track (1 / 240) zeroInput c).lap = c.lap := by
  simp only [stepCar, stepCarFull, zeroInput, h1, h2, h3, h4, h5]
  norm_num [clampf, min_def, max_def, f1sim_default_car_config, kAirDensity,
    kGravity, lapRollover, hL]

end RestStability

/-- C9.  Rest stability: starting from the reset state of the default
configs (rolling resistance 180 ≥ 0), a car given zero inputs keeps
`x = y = yaw = s = speed = 0` and `lap = 0` after every number of steps. -/
theorem rest_stability (tr : Trig) (n : ℕ) :
    ∀ c ∈ ((stepZero tr)^[n] defaultCore).cars,
      c.x_m = 0 ∧ c.y_m = 0 ∧ c.yaw_rad = 0 ∧ c.s_m = 0 ∧
        c.speed_mps = 0 ∧ c.lap = 0 := by
  induction n with
  | zero =>
    intro c hc
    have hcars : defaultCore.cars = [resetCar] := rfl
    rw [Function.iterate_zero_apply, hcars, List.mem_singleton] at hc
    rw [hc]
    exact ⟨rfl, rfl, rfl, rfl, rfl, rfl⟩
  | succ n ih =>
    intro c hc
    rw [Function.iterate_succ_apply', stepZero, Step_cars] at hc
    unfold carsStep at hc
    rcases List.mem_map.1 hc with ⟨i, hi, rfl⟩
    have hi' : i < ((stepZero tr)^[n] defaultCore).cars.length := List.mem_range.1 hi
    have hmem : ((stepZero tr)^[n] defaultCore).cars.getD i resetCar
        ∈ ((stepZero tr)^[n] defaultCore).cars := by
      rw [List.getD_eq_getElem _ _ hi']
      exact List.getElem_mem hi'
    obtain ⟨hx, hy, hyaw, hs, hspeed, hlap⟩ := ih _ hmem
    have hLpos : 0 < ((stepZero tr)^[n] defaultCore).track.length_m := by
      rw [iterate_stepZero_track]
      exact defaultCore_track_pos
    rw [getInput_single_zero, iterate_stepZero_car_cfg, iterate_stepZero_dt]
    have hres := stepCar_rest tr _ hLpos _ hspeed hs hx hy hyaw
    exact ⟨hres.1, hres.2.1, hres.2.2.1, hres.2.2.2.1, hres.2.2.2.2.1,
      hres.2.2.2.2.2.trans hlap⟩

set_option maxRecDepth 400000 in
/-- C9 witness: after one zero-input step of the default core, its single
car is still at the origin with zero speed and zero laps. -/
theorem rest_stability_witness :
    ((stepZero trig0)^[1] defaultCore).cars.getD 0 resetCar
        ∈ ((stepZero trig0)^[1] defaultCore).cars ∧
      ((((stepZero trig0)^[1] defaultCore).cars.getD 0 resetCar).x_m = 0 ∧
       (((stepZero trig0)^[1] defaultCore).cars.getD 0 resetCar).y_m = 0 ∧
       (((stepZero trig0)^[1] defaultCore).cars.getD 0 resetCar).yaw_rad = 0 ∧
       (((stepZero trig0)^[1] defaultCore).cars.getD 0 resetCar).s_m = 0 ∧
       (((stepZero trig0)^[1] defaultCore).cars.getD 0 resetCar).speed_mps = 0 ∧
       (((stepZero trig0)^[1] defaultCore).cars.getD 0 resetCar).lap = 0) := by
  refine ⟨by decide, ?_⟩
  exact rest_stability trig0 1 _ (by decide)

section ReplayMachinery

lemma getInput_padInputs (F : List DriverInput) (n i : ℕ) (hi : i < n) :
    getInput (padInputs F n) i = getInput F i := by
  unfold getInput padInputs
  rw [List.getD_eq_getElem _ _ (by simpa using hi)]
  simp [getInput, List.getD]

lemma padInputs_idem (F : List DriverInput) (n : ℕ) :
    padInputs (padInputs F n) n = padInputs F n := by
  unfold padInputs
  refine List.map_congr_left ?_
  intro i hi
  exact getInput_padInputs F n i (List.mem_range.1 hi)

lemma carsStep_pad (tr : Trig) (cfg : CarConfig) (track : TrackProfile) (dt : ℚ)
    (cars : List CarState) (F : List DriverInput) :
    carsStep tr cfg track dt cars (padInputs F cars.length)
      = carsStep tr cfg track dt cars F := by
  unfold carsStep
  refine List.map_congr_left ?_
  intro i hi
  rw [getInput_padInputs F cars.length i (List.mem_range.1 hi)]

lemma padInputs_eq_self (f : List DriverInput) : padInputs f f.length = f := by
  apply List.ext_getElem
  · simp [padInputs]
  · intro i h1 h2
    simp only [padInputs, List.getElem_map, List.getElem_range, getInput]
    rw [List.getD_eq_getElem _ _ h2]

lemma Step_frames_capture (tr : Trig) (core : SimulationCore)
    (f : List DriverInput) (hcap : core.capture_replay = true)
    (hlt : core.replay_frames.length < core.sim_cfg.replay_capacity_steps) :
    (Step tr core f).replay_frames
      = core.replay_frames ++ [padInputs f core.cars.length] := by
  unfold Step
  rw [if_pos ⟨hcap, hlt⟩]

lemma Step_frames_nocapture (tr : Trig) (core : SimulationCore)
    (f : List DriverInput) (hcap : core.capture_replay = false) :
    (Step tr core f).replay_frames = core.replay_frames := by
  unfold Step
  rw [if_neg]
  intro hcond
  rw [hcap] at hcond
  exact Bool.false_ne_true hcond.1

lemma foldl_Step_frames (tr : Trig) (Fs : List (List DriverInput)) :
    ∀ core : SimulationCore, core.capture_replay = true →
      core.replay_frames.length + Fs.length ≤ core.sim_cfg.replay_capacity_steps →
      (Fs.foldl (Step tr) core).replay_frames
        = core.replay_frames ++ Fs.map (fun f => padInputs f core.cars.length) := by
  induction Fs with
  | nil =>
    intro core _ _
    simp
  | cons f fs ih =>
    intro core hcap hle
    have hlt : core.replay_frames.length < core.sim_cfg.replay_capacity_steps := by
      simp only [List.length_cons] at hle
      omega
    have hstep := Step_frames_capture tr core f hcap hlt
    have hcap' : (Step tr core f).capture_replay = true := by
      rw [Step_capture]
      exact hcap
    have hle' : (Step tr core f).replay_frames.length + fs.length
        ≤ (Step tr core f).sim_cfg.replay_capacity_steps := by
      rw [hstep, Step_sim_cfg, List.length_append]
      simp only [List.length_cons, List.length_nil] at hle ⊢
      omega
    rw [List.foldl_cons, ih (Step tr core f) hcap' hle', hstep, Step_cars_length,
      List.map_cons]
    simp [List.append_assoc]

lemma foldl_Step_frames_nocapture (tr : Trig) (Fs : List (List DriverInput)) :
    ∀ core : SimulationCore, core.capture_replay = false →
      (Fs.foldl (Step tr) core).replay_frames = core.replay_frames := by
  induction Fs with
  | nil =>
    intro core _
    rfl
  | cons f fs ih =>
    intro core hcap
    rw [List.foldl_cons, ih (Step tr core f) (by rw [Step_capture]; exact hcap),
      Step_frames_nocapture tr core f hcap]

lemma foldl_Step_cars (tr : Trig) (Fs : List (List DriverInput)) :
    ∀ core : SimulationCore,
      (Fs.foldl (Step tr) core).cars
        = Fs.foldl (carsStep tr core.car_cfg core.track core.sim_cfg.fixed_dt)
            core.cars := by
  induction Fs with
  | nil =>
    intro core
    rfl
  | cons f fs ih =>
    intro core
    rw [List.foldl_cons, List.foldl_cons, ih, Step_cars, Step_car_cfg, Step_track,
      Step_sim_cfg]

lemma foldl_carsStep_pad (tr : Trig) (cfg : CarConfig) (track : TrackProfile)
    (dt : ℚ) (Fs : List (List DriverInput)) :
    ∀ (cars : List CarState) (n : ℕ), cars.length = n →
      (Fs.map (fun f => padInputs f n)).foldl (carsStep tr cfg track dt) cars
        = Fs.foldl (carsStep tr cfg track dt) cars := by
  induction Fs with
  | nil =>
    intro cars n _
    rfl
  | cons f fs ih =>
    intro cars n hn
    simp only [List.map_cons, List.foldl_cons]
    have hpad : carsStep tr cfg track dt cars (padInputs f n)
        = carsStep tr cfg track dt cars f := by
      rw [← hn]
      exact carsStep_pad tr cfg track dt cars f
    rw [hpad, ih (carsStep tr cfg track dt cars f) n (by rw [carsStep_length, hn])]

lemma range_all_matches_self (l : List CarState) :
    ((List.range l.length).all
      (fun i => replayCarMatches (l.getD i resetCar) (l.getD i resetCar))) = true := by
  rw [List.all_eq_true]
  intro i _
  simp only [replayCarMatches, sub_self, abs_zero, Bool.and_eq_true,
    decide_eq_true_eq]
  norm_num

end ReplayMachinery

set_option linter.unusedVariables false in
/-- C1 (corrected).  Replay determinism from a reset-state core: if
capture starts on a core whose cars are all in the reset state, the track
length is positive, and `1 ≤ n ≤ replay_capacity_steps` frames are then
stepped in, `replay_captured_deterministic()` returns true — the replay
re-runs exactly the recorded frames from `reset()` and lands on the
baseline state exactly, within all tolerances. -/
theorem replay_captured_deterministic_from_reset (tr : Trig)
    (core : SimulationCore) (F : List (List DriverInput))
    (hreset : core.cars = List.replicate core.cars.length resetCar)
    (hn : 1 ≤ F.length)
    (hcap : F.length ≤ core.sim_cfg.replay_capacity_steps)
    (hL : 0 < core.track.length_m) :
    (ReplayCapturedDeterministic tr
      (F.foldl (Step tr) (StartReplayCapture core))).1 = true := by
  have hc0cap : (StartReplayCapture core).capture_replay = true := rfl
  have hframes : (F.foldl (Step tr) (StartReplayCapture core)).replay_frames
      = F.map (fun f => padInputs f core.cars.length) := by
    rw [foldl_Step_frames tr F (StartReplayCapture core) hc0cap
      (by simpa [StartReplayCapture] using hcap)]
    rfl
  have hFne : F ≠ [] := by
    intro h
    rw [h] at hn
    simp at hn
  have hnonempty :
      (F.foldl (Step tr) (StartReplayCapture core)).replay_frames.isEmpty = false := by
    rw [hframes]
    simpa using hFne
  have hlen : (F.foldl (Step tr) (StartReplayCapture core)).cars.length
      = core.cars.length := by
    rw [foldl_Step_cars_length]
    rfl
  have hResetCars :
      (Reset (F.foldl (Step tr) (StartReplayCapture core))).cars = core.cars := by
    unfold Reset
    simp only
    rw [hlen, ← hreset]
  have hc2 : ((F.foldl (Step tr) (StartReplayCapture core)).replay_frames.foldl
        (Step tr) (Reset (F.foldl (Step tr) (StartReplayCapture core)))).cars
      = (F.foldl (Step tr) (StartReplayCapture core)).cars := by
    rw [foldl_Step_cars]
    have hcfg : (Reset (F.foldl (Step tr) (StartReplayCapture core))).car_cfg
        = core.car_cfg := by
      show (F.foldl (Step tr) (StartReplayCapture core)).car_cfg = core.car_cfg
      rw [foldl_Step_car_cfg]
      rfl
    have htrk : (Reset (F.foldl (Step tr) (StartReplayCapture core))).track
        = core.track := by
      show (F.foldl (Step tr) (StartReplayCapture core)).track = core.track
      rw [foldl_Step_track]
      rfl
    have hdt : (Reset (F.foldl (Step tr) (StartReplayCapture core))).sim_cfg
        = core.sim_cfg := by
      show (F.foldl (Step tr) (StartReplayCapture core)).sim_cfg = core.sim_cfg
      rw [foldl_Step_sim_cfg]
      rfl
    rw [hcfg, htrk, hdt, hResetCars, hframes,
      foldl_carsStep_pad tr core.car_cfg core.track core.sim_cfg.fixed_dt F
        core.cars core.cars.length rfl,
      foldl_Step_cars]
    rfl
  unfold ReplayCapturedDeterministic
  rw [if_neg (by rw [hnonempty]; exact Bool.false_ne_true)]
  simp only
  rw [hc2, range_all_matches_self]

set_option maxRecDepth 200000 in
/-- C1 witness: on the core created from the simple concrete configs, one
full-throttle frame captured from the reset state replays
deterministically. -/
theorem replay_captured_deterministic_from_reset_witness :
    cexCore.cars = List.replicate cexCore.cars.length resetCar ∧
      1 ≤ ([[(⟨1, 0, 0⟩ : DriverInput)]] : List (List DriverInput)).length ∧
      ([[(⟨1, 0, 0⟩ : DriverInput)]] : List (List DriverInput)).length
        ≤ cexCore.sim_cfg.replay_capacity_steps ∧
      0 < cexCore.track.length_m ∧
      (ReplayCapturedDeterministic trig0
        ([[(⟨1, 0, 0⟩ : DriverInput)]].foldl (Step trig0)
          (StartReplayCapture cexCore))).1 = true := by
  refine ⟨by decide, by decide, by decide, by decide, ?_⟩
  exact replay_captured_deterministic_from_reset trig0 cexCore _
    (by decide) (by decide) (by decide) (by decide)

section ReplayRepeat

lemma replay_check_of_empty (tr : Trig) (core : SimulationCore)
    (h : core.replay_frames.isEmpty = true) :
    ReplayCapturedDeterministic tr core = (false, core) := by
  unfold ReplayCapturedDeterministic
  rw [if_pos h]

lemma Reset_capture (core : SimulationCore) :
    (Reset core).capture_replay = core.capture_replay := rfl

lemma Reset_cars_length (core : SimulationCore) :
    (Reset core).cars.length = core.cars.length := by
  simp [Reset]

end ReplayRepeat

/-- C10.  Repeatability of the determinism check: the check resets the
core (clearing the buffer) and re-steps the recorded frames, which are
re-recorded only while capture is on.  So if `stop_replay_capture()` was
called first, the buffer is empty after the check and an immediately
following second check returns false; with capture still on the buffer
holds the same recorded frames again after the check. -/
theorem replay_check_repeatability (tr : Trig) (core : SimulationCore)
    (hlen : ∀ f ∈ core.replay_frames, f.length = core.cars.length)
    (hcap : core.replay_frames.length ≤ core.sim_cfg.replay_capacity_steps) :
    (core.capture_replay = false →
      (ReplayCapturedDeterministic tr core).2.replay_frames = [] ∧
        (ReplayCapturedDeterministic tr
          (ReplayCapturedDeterministic tr core).2).1 = false) ∧
    (core.capture_replay = true →
      (ReplayCapturedDeterministic tr core).2.replay_frames
        = core.replay_frames) := by
  by_cases hemp : core.replay_frames.isEmpty = true
  · have heq := replay_check_of_empty tr core hemp
    have hnil : core.replay_frames = [] := by
      simpa using hemp
    constructor
    · intro _
      constructor
      · rw [heq]
        exact hnil
      · rw [heq]
        show (ReplayCapturedDeterministic tr core).1 = false
        rw [heq]
    · intro _
      rw [heq]
  · have hemp' : core.replay_frames.isEmpty = false := by
      simpa using hemp
    have h2 : (ReplayCapturedDeterministic tr core).2
        = core.replay_frames.foldl (Step tr) (Reset core) := by
      unfold ReplayCapturedDeterministic
      rw [if_neg (by rw [hemp']; exact Bool.false_ne_true)]
    constructor
    · intro hoff
      have hRcap : (Reset core).capture_replay = false := by
        rw [Reset_capture]
        exact hoff
      have hafter : (ReplayCapturedDeterministic tr core).2.replay_frames = [] := by
        rw [h2, foldl_Step_frames_nocapture tr core.replay_frames (Reset core) hRcap]
        rfl
      refine ⟨hafter, ?_⟩
      rw [replay_check_of_empty tr _ (by rw [hafter]; rfl)]
    · intro hon
      have hRcap : (Reset core).capture_replay = true := by
        rw [Reset_capture]
        exact hon
      have hle : (Reset core).replay_frames.length + core.replay_frames.length
          ≤ (Reset core).sim_cfg.replay_capacity_steps := by
        show (0 : ℕ) + core.replay_frames.length ≤ core.sim_cfg.replay_capacity_steps
        simpa using hcap
      rw [h2, foldl_Step_frames tr core.replay_frames (Reset core) hRcap hle]
      have hmap : core.replay_frames.map
            (fun f => padInputs f (Reset core).cars.length)
          = core.replay_frames := by
        have : ∀ f ∈ core.replay_frames,
            padInputs f (Reset core).cars.length = f := by
          intro f hf
          rw [Reset_cars_length, ← hlen f hf]
          exact padInputs_eq_self f
        calc core.replay_frames.map (fun f => padInputs f (Reset core).cars.length)
            = core.replay_frames.map id := List.map_congr_left this
          _ = core.replay_frames := List.map_id _
      rw [hmap]
      rfl

set_option maxRecDepth 100000 in
/-- C10 witness: a one-car core holding one recorded one-entry frame with
capture off: after the check the buffer is empty and a second check
returns false; the same core with capture on keeps its frame. -/
theorem replay_check_repeatability_witness :
    (∀ f ∈ c10Core.replay_frames, f.length = c10Core.cars.length) ∧
    c10Core.replay_frames.length ≤ c10Core.sim_cfg.replay_capacity_steps ∧
    ((ReplayCapturedDeterministic trig0 c10Core).2.replay_frames = [] ∧
      (ReplayCapturedDeterministic trig0
        (ReplayCapturedDeterministic trig0 c10Core).2).1 = false) := by
  refine ⟨by decide, by decide, ?_⟩
  exact (replay_check_repeatability trig0 c10Core (by decide) (by decide)).1 rfl

end F1Sim
